import Mathlib

/-!
# Gesture-gated Wi-Fi join and LED control (`main/blink_example_main.c`)

A shallow embedding of the firmware's handlers.  Global variables of the C
file become fields of `State`; every handler is a function `State → State`.
Calls into FreeRTOS / ESP-IDF that the properties below speak about are
recorded, in the order in which they complete, in `State.trace`.

Library behaviour assumed (the libraries are external to the repository):
* `xEventGroupSetBits g b` ORs `b` into the group value (also when called
  from the button ISR, as the source does);
* `xEventGroupWaitBits g m pdFALSE pdTRUE portMAX_DELAY` returns once
  `value & m == m`, leaves the value untouched, and blocks the caller until then;
* `xQueueSendFromISR` appends at the tail unless the queue holds
  `capacity` items, in which case nothing is stored;
* `xQueueReceive … portMAX_DELAY` removes the head, blocking on an empty queue;
* the LED strip has one pixel: `led_strip_set_pixel` writes the frame buffer,
  `led_strip_refresh` transmits the buffer, `led_strip_clear` zeroes the
  buffer and transmits it;
* `strncmp` compares at most `n` bytes and stops after a NUL byte.
-/

namespace BlinkExample

/-! ## Data model -/

/-- Calls into the libraries, as they appear in the C source. -/
inductive Call where
  | led_strip_set_pixel (index red green blue : Nat)
  | led_strip_refresh
  | led_strip_clear
  | vTaskDelay_ms (ms : Nat)
  | xEventGroupWaitBits
  | esp_wifi_connect
  | xSemaphoreGive
  | esp_mqtt_client_subscribe (topic : List Nat) (qos : Nat)
  deriving DecidableEq, Repr

/-- Event bases used by `wifi_event_handler`. -/
inductive EventBase where
  | WIFI_EVENT
  | IP_EVENT
  | OTHER_BASE
  deriving DecidableEq, Repr

/-- Value of `WIFI_EVENT_STA_START` in `wifi_event_t` (ESP-IDF header). -/
def WIFI_EVENT_STA_START : Int := 2

/-- Value of `WIFI_EVENT_STA_DISCONNECTED` in `wifi_event_t` (ESP-IDF header). -/
def WIFI_EVENT_STA_DISCONNECTED : Int := 5

/-- Value of `IP_EVENT_STA_GOT_IP` in `ip_event_t` (ESP-IDF header). -/
def IP_EVENT_STA_GOT_IP : Int := 0

/-- The single-pixel LED strip (`max_leds = 1`): frame buffer and the colour
last transmitted to the LED. -/
structure LedStrip where
  pixel : Nat × Nat × Nat
  shown : Nat × Nat × Nat
  deriving DecidableEq, Repr

/-- Global state of the firmware.
* `GestureBits` is the value of the event group `wifi_event_group`;
* `press_number` is the `volatile int press_number`;
* `button_queue` holds the items of the FreeRTOS queue, head first;
* `waiting` says that the event-loop task is blocked inside the
  `xEventGroupWaitBits` call of `wifi_event_handler`;
* `pending` are the events posted to the default event loop and not yet
  dispatched;
* `wifi_connected_semaphore` says that the binary semaphore is available. -/
structure State where
  GestureBits : Nat
  press_number : Int
  button_queue : List Int
  waiting : Bool
  pending : List (EventBase × Int)
  wifi_connected_semaphore : Bool
  led_strip : LedStrip
  trace : List Call
  deriving DecidableEq, Repr

/-- Line 28: `BUTTON_PRESSED_BIT = BIT0`. -/
def BUTTON_PRESSED_BIT : Nat := 1

/-- Line 29: `BITS_TO_WAIT = 7`. -/
def BITS_TO_WAIT : Nat := 7

/-- Length given to `xQueueCreate` in `app_main` (line 187). -/
def BUTTON_QUEUE_LENGTH : Nat := 10

/-- State once `app_main` has created the global objects: event group
value 0, counter 0, empty queue, strip cleared, semaphore not given. -/
def init : State :=
  { GestureBits := 0
    press_number := 0
    button_queue := []
    waiting := false
    pending := []
    wifi_connected_semaphore := false
    led_strip := { pixel := (0, 0, 0), shown := (0, 0, 0) }
    trace := [] }

/-! ## FreeRTOS primitives -/

/-- Library model of `xQueueSendFromISR`: the item is stored at the tail when
there is room, otherwise it is discarded (`errQUEUE_FULL`). -/
def xQueueSendFromISR (capacity : Nat) (q : List Int) (item : Int) : List Int :=
  if q.length < capacity then q ++ [item] else q

/-- Library model of `xEventGroupSetBits`: `uxEventBits |= uxBitsToSet`. -/
def xEventGroupSetBits (value bitsToSet : Nat) : Nat :=
  value ||| bitsToSet

/-- Condition on which `xEventGroupWaitBits (…, BITS_TO_WAIT, pdFALSE, pdTRUE, …)`
returns: all bits of the mask are set. -/
def gateSatisfied (s : State) : Prop :=
  s.GestureBits &&& BITS_TO_WAIT = BITS_TO_WAIT

instance (s : State) : Decidable (gateSatisfied s) := by
  unfold gateSatisfied; infer_instance

/-! ## Press accumulator -/

/-- Lines 34–41.  The C `%` on `int` truncates towards zero (`Int.tmod`);
the shift count is the counter value before the increment. -/
def button_isr_handler (s : State) : State :=
  let button_state : Int := 1
  { s with
    button_queue := xQueueSendFromISR BUTTON_QUEUE_LENGTH s.button_queue button_state
    GestureBits := xEventGroupSetBits s.GestureBits (BUTTON_PRESSED_BIT <<< s.press_number.toNat)
    press_number := (s.press_number + 1).tmod 3 }

/-- The handler run `k` times in a row. -/
def presses : Nat → State → State
  | 0, s => s
  | k + 1, s => presses k (button_isr_handler s)

/-- Counter positions (values of `press_number` before the increment) at which
the next `k` presses occur. -/
def pressPositions : Nat → State → List Int
  | 0, _ => []
  | k + 1, s => s.press_number :: pressPositions k (button_isr_handler s)

/-! ## Connectivity gate -/

/-- Line 62–63 from the point where the task sits in `xEventGroupWaitBits`:
when all bits of the mask are set the wait returns (nothing is cleared, the
clear-on-exit argument is `false`) and `esp_wifi_connect` is called; otherwise
the task stays blocked. -/
def wait_then_connect (s : State) : State :=
  if gateSatisfied s then
    { s with
      waiting := false
      trace := s.trace ++ [Call.xEventGroupWaitBits, Call.esp_wifi_connect] }
  else
    { s with waiting := true }

/-- Lines 58–76. -/
def wifi_event_handler (s : State) (event_base : EventBase) (event_id : Int) : State :=
  if event_base = EventBase.WIFI_EVENT ∧ event_id = WIFI_EVENT_STA_START then
    wait_then_connect s
  else if event_base = EventBase.WIFI_EVENT ∧ event_id = WIFI_EVENT_STA_DISCONNECTED then
    { s with trace := s.trace ++ [Call.esp_wifi_connect] }
  else if event_base = EventBase.IP_EVENT ∧ event_id = IP_EVENT_STA_GOT_IP then
    { s with
      wifi_connected_semaphore := true
      trace := s.trace ++ [Call.xSemaphoreGive] }
  else
    s

/-- One scheduling slot of the default event-loop task: a task blocked in the
handler retries the wait; an idle task dispatches the oldest pending event. -/
def event_loop_run (s : State) : State :=
  if s.waiting then
    wait_then_connect s
  else
    match s.pending with
    | [] => s
    | (event_base, event_id) :: rest =>
        wifi_event_handler { s with pending := rest } event_base event_id

/-! ## Actuator -/

/-- Library model of `led_strip_set_pixel` for a strip with one LED. -/
def led_strip_set_pixel (s : State) (index red green blue : Nat) : State :=
  { s with
    led_strip := if index < 1 then { s.led_strip with pixel := (red, green, blue) } else s.led_strip
    trace := s.trace ++ [Call.led_strip_set_pixel index red green blue] }

/-- Library model of `led_strip_refresh`. -/
def led_strip_refresh (s : State) : State :=
  { s with
    led_strip := { s.led_strip with shown := s.led_strip.pixel }
    trace := s.trace ++ [Call.led_strip_refresh] }

/-- Library model of `led_strip_clear`. -/
def led_strip_clear (s : State) : State :=
  { s with
    led_strip := { pixel := (0, 0, 0), shown := (0, 0, 0) }
    trace := s.trace ++ [Call.led_strip_clear] }

/-- The call `vTaskDelay(pdMS_TO_TICKS(ms))`; only the call is recorded. -/
def vTaskDelay_ms (s : State) (ms : Nat) : State :=
  { s with trace := s.trace ++ [Call.vTaskDelay_ms ms] }

/-- Lines 44–55. -/
def led_set_state (s : State) (state : Int) : State :=
  if state ≠ 0 then
    led_strip_refresh (led_strip_set_pixel s 0 16 16 16)
  else
    led_strip_clear s

/-! ## Animation task -/

/-- Body of the `for` loop of `button_task` (lines 117–122) at index `i`. -/
def button_task_step (s : State) (i : Nat) : State :=
  led_strip_clear
    (vTaskDelay_ms
      (led_strip_refresh
        (led_strip_set_pixel s 0 (16 * (i % 1)) (16 * (i % 2)) (16 * (i % 3))))
      100)

/-- The loop `for (int i = 0; i < 10; i++)` of `button_task`. -/
def button_task_animation (s : State) : State :=
  (List.range 10).foldl button_task_step s

/-- One turn of the `while (1)` loop of `button_task` (lines 110–124): on an
empty queue the task stays blocked in `xQueueReceive`. -/
def button_task_turn (s : State) : State :=
  match s.button_queue with
  | [] => s
  | _ :: rest => button_task_animation { s with button_queue := rest }

/-! ## Remote command dispatcher -/

/-- Event identifiers distinguished by `mqtt_event_handler`; every other
identifier takes the `default` branch. -/
inductive MqttEventId where
  | MQTT_EVENT_CONNECTED
  | MQTT_EVENT_DATA
  | MQTT_EVENT_OTHER
  deriving DecidableEq, Repr

/-- The fields of `esp_mqtt_event_t` read by the handler.  `data` lists the
bytes stored from the address `event->data` onwards (the payload followed by
whatever the receive buffer holds after it); `data_len` is the payload length. -/
structure MqttEvent where
  event_id : MqttEventId
  data : List Nat
  data_len : Nat
  deriving DecidableEq, Repr

/-- The payload of a message: the first `data_len` bytes at `event->data`. -/
def MqttEvent.payload (ev : MqttEvent) : List Nat :=
  ev.data.take ev.data_len

/-- Library model of `strncmp`: bytes beyond the end of a list read as NUL. -/
def strncmp : List Nat → List Nat → Nat → Int
  | _, _, 0 => 0
  | s1, s2, n + 1 =>
      let c1 := s1.headD 0
      let c2 := s2.headD 0
      if c1 ≠ c2 then (c1 : Int) - (c2 : Int)
      else if c1 = 0 then 0
      else strncmp s1.tail s2.tail n

/-- The string literal `"ON"` with its terminating NUL. -/
def str_ON : List Nat := [79, 78, 0]

/-- The string literal `"OFF"` with its terminating NUL. -/
def str_OFF : List Nat := [79, 70, 70, 0]

/-- The string literal `"/led"`. -/
def str_led_topic : List Nat := [47, 108, 101, 100]

/-- Lines 79–103. -/
def mqtt_event_handler (s : State) (event : MqttEvent) : State :=
  match event.event_id with
  | MqttEventId.MQTT_EVENT_CONNECTED =>
      { s with trace := s.trace ++ [Call.esp_mqtt_client_subscribe str_led_topic 0] }
  | MqttEventId.MQTT_EVENT_DATA =>
      if strncmp event.data str_ON 2 = 0 then
        led_set_state s 1
      else if strncmp event.data str_OFF 3 = 0 then
        led_set_state s 0
      else
        s
  | MqttEventId.MQTT_EVENT_OTHER => s

/-! ## The system as a transition system -/

/-- What can happen next: a falling edge on the button pin (the ISR runs), a
notification posted to the default event loop, a scheduling slot of the
event-loop task, or a turn of the animation task. -/
inductive Input where
  | press
  | post (event_base : EventBase) (event_id : Int)
  | loopRun
  | buttonTask
  deriving DecidableEq, Repr

/-- One transition of the system. -/
def step (s : State) : Input → State
  | Input.press => button_isr_handler s
  | Input.post event_base event_id => { s with pending := s.pending ++ [(event_base, event_id)] }
  | Input.loopRun => event_loop_run s
  | Input.buttonTask => button_task_turn s

/-- The state reached from `s` by a sequence of inputs. -/
def run (s : State) (ins : List Input) : State :=
  ins.foldl step s

/-- The event-loop task is given time until it has nothing left to do: it is
either blocked on an unsatisfied gate or idle with no pending event. -/
def settle (s : State) : State :=
  run s (List.replicate (2 * s.pending.length + 1) Input.loopRun)

/-- Number of button presses among the inputs. -/
def countPress (ins : List Input) : Nat :=
  ins.count Input.press

/-- Number of `WIFI_EVENT_STA_START` notifications among the inputs. -/
def countStart (ins : List Input) : Nat :=
  ins.count (Input.post EventBase.WIFI_EVENT WIFI_EVENT_STA_START)

/-- Number of join requests issued so far. -/
def joinCount (s : State) : Nat :=
  s.trace.count Call.esp_wifi_connect

/-- Number of completed gate waits so far; each is followed at once by the
join request of line 63. -/
def gateJoinCount (s : State) : Nat :=
  s.trace.count Call.xEventGroupWaitBits

/-- The event-loop task is about to run the reconnect branch (lines 65–69). -/
def dispatchingDisconnect (s : State) : Prop :=
  s.waiting = false ∧
    s.pending.head? = some (EventBase.WIFI_EVENT, WIFI_EVENT_STA_DISCONNECTED)

instance (s : State) : Decidable (dispatchingDisconnect s) := by
  unfold dispatchingDisconnect; infer_instance

/-- The calls of one animation step. -/
def animationStepCalls (i : Nat) : List Call :=
  [Call.led_strip_set_pixel 0 (16 * (i % 1)) (16 * (i % 2)) (16 * (i % 3)),
   Call.led_strip_refresh, Call.vTaskDelay_ms 100, Call.led_strip_clear]

/-- The calls of a whole animation: steps 0 to 9 in order. -/
def animationCalls : List Call :=
  (List.range 10).flatMap animationStepCalls

/-- Number of `WIFI_EVENT_STA_START` notifications received and not yet
answered by a join request: the one being waited on plus those still queued. -/
def outstandingStarts (s : State) : Nat :=
  (if s.waiting then 1 else 0) +
    s.pending.count (EventBase.WIFI_EVENT, WIFI_EVENT_STA_START)

/-- The event-loop task can make no progress: it is blocked on an unsatisfied
gate, or idle with nothing to dispatch. -/
def quiescent (s : State) : Prop :=
  (s.waiting = true ∧ ¬ gateSatisfied s) ∨ (s.waiting = false ∧ s.pending = [])

/-- Work left for the event-loop task. -/
def loopMeasure (s : State) : Nat :=
  2 * s.pending.length + (if s.waiting then 1 else 0)

/-- State in which press and network events start to arrive: `wifi_init`
(called from `app_main` before the button ISR is installed) has run
`esp_wifi_start` (line 148), which posts `WIFI_EVENT_STA_START` to the
default event loop. -/
def booted : State :=
  step init (Input.post EventBase.WIFI_EVENT WIFI_EVENT_STA_START)

/-- Along the run from `s`, every transition that issues a join request starts
in a state where the gate condition holds. -/
def joinsGated : State → List Input → Bool
  | _, [] => true
  | s, i :: ins =>
      (decide (joinCount (step s i) = joinCount s) || decide (gateSatisfied s)) &&
        joinsGated (step s i) ins

/-- An `MQTT_EVENT_DATA` event whose `data` pointer sees the bytes `data`
and whose payload is the first `data_len` of them. -/
def dataEvent (data : List Nat) (data_len : Nat) : MqttEvent :=
  { event_id := MqttEventId.MQTT_EVENT_DATA, data := data, data_len := data_len }

/-- Number of `WIFI_EVENT_STA_DISCONNECTED` notifications among the inputs. -/
def countDisconnect (ins : List Input) : Nat :=
  ins.count (Input.post EventBase.WIFI_EVENT WIFI_EVENT_STA_DISCONNECTED)

/-- Number of disconnect notifications posted and not yet dispatched. -/
def pendingDisconnects (s : State) : Nat :=
  s.pending.count (EventBase.WIFI_EVENT, WIFI_EVENT_STA_DISCONNECTED)

instance (s : State) : Decidable (quiescent s) := by
  unfold quiescent; infer_instance

/-! ## Interleaved actuator writes -/

theorem button_task_step_eq (s : State) (i : Nat) :
    button_task_step s i =
      { s with
        led_strip := { pixel := (0, 0, 0), shown := (0, 0, 0) }
        trace := s.trace ++ animationStepCalls i } := by
  simp [button_task_step, led_strip_clear, vTaskDelay_ms, led_strip_refresh,
    led_strip_set_pixel, animationStepCalls]

theorem foldl_button_task_step (l : List Nat) (s : State) (hl : l ≠ []) :
    l.foldl button_task_step s =
      { s with
        led_strip := { pixel := (0, 0, 0), shown := (0, 0, 0) }
        trace := s.trace ++ l.flatMap animationStepCalls } := by
  induction l generalizing s with
  | nil => exact absurd rfl hl
  | cons i l ih =>
    by_cases h : l = []
    · subst h
      simp [button_task_step_eq]
    · rw [List.foldl_cons, ih _ h, button_task_step_eq]
      simp [List.flatMap_cons]

theorem button_task_animation_eq (s : State) :
    button_task_animation s =
      { s with
        led_strip := { pixel := (0, 0, 0), shown := (0, 0, 0) }
        trace := s.trace ++ animationCalls } := by
  unfold button_task_animation animationCalls
  exact foldl_button_task_step _ s (by decide)

/-! ### Bit-level facts -/

theorem or_and_mask (a b m : Nat) (h : a &&& m = m) : (a ||| b) &&& m = m := by
  apply Nat.eq_of_testBit_eq
  intro j
  have hj := congrArg (fun x => x.testBit j) h
  simp only [Nat.testBit_and, Nat.testBit_or] at hj ⊢
  cases ha : a.testBit j <;> cases hb : b.testBit j <;> cases hm : m.testBit j <;> simp_all

theorem or_absorb (a b : Nat) (h : a &&& b = b) : a ||| b = a := by
  apply Nat.eq_of_testBit_eq
  intro j
  have hj := congrArg (fun x => x.testBit j) h
  simp only [Nat.testBit_and, Nat.testBit_or] at hj ⊢
  cases ha : a.testBit j <;> cases hb : b.testBit j <;> simp_all

theorem or_and_self (a b : Nat) : (a ||| b) &&& a = a := by
  apply Nat.eq_of_testBit_eq
  intro j
  simp only [Nat.testBit_and, Nat.testBit_or]
  cases a.testBit j <;> cases b.testBit j <;> rfl

/-! ### The press accumulator -/

theorem isr_bits (s : State) :
    (button_isr_handler s).GestureBits = s.GestureBits ||| (1 <<< s.press_number.toNat) := rfl

theorem isr_press_number (s : State) :
    (button_isr_handler s).press_number = (s.press_number + 1).tmod 3 := rfl

theorem isr_counter_range (s : State)
    (h : s.press_number = 0 ∨ s.press_number = 1 ∨ s.press_number = 2) :
    (button_isr_handler s).press_number = 0 ∨ (button_isr_handler s).press_number = 1 ∨
      (button_isr_handler s).press_number = 2 := by
  rw [isr_press_number]
  rcases h with h | h | h <;> rw [h] <;> decide

theorem presses_counter_range (k : Nat) (s : State)
    (h : s.press_number = 0 ∨ s.press_number = 1 ∨ s.press_number = 2) :
    (presses k s).press_number = 0 ∨ (presses k s).press_number = 1 ∨
      (presses k s).press_number = 2 := by
  induction k generalizing s with
  | zero => exact h
  | succ k ih => exact ih _ (isr_counter_range s h)

/-- C3: with the counter at `c ∈ {0,1,2}` one press ORs bit `c` into
`GestureBits` (every other bit keeps its value) and advances the counter to
`(c + 1) mod 3`; the counter stays in `{0,1,2}` after any number of presses,
the bit lies inside the mask `0b111`, and a press whose bit is already set
leaves `GestureBits` unchanged. -/
theorem C3_press_sets_counter_bit (s : State) (c : Int)
    (hc : c = 0 ∨ c = 1 ∨ c = 2) (h : s.press_number = c) :
    (button_isr_handler s).GestureBits = s.GestureBits ||| (1 <<< c.toNat) ∧
    (∀ j, j ≠ c.toNat →
      (button_isr_handler s).GestureBits.testBit j = s.GestureBits.testBit j) ∧
    (button_isr_handler s).press_number = (c + 1) % 3 ∧
    (∀ k, (presses k s).press_number = 0 ∨ (presses k s).press_number = 1 ∨
      (presses k s).press_number = 2) ∧
    (1 <<< c.toNat) &&& BITS_TO_WAIT = 1 <<< c.toNat ∧
    (s.GestureBits &&& (1 <<< c.toNat) = 1 <<< c.toNat →
      (button_isr_handler s).GestureBits = s.GestureBits) := by
  have hb : (button_isr_handler s).GestureBits = s.GestureBits ||| (1 <<< c.toNat) := by
    rw [isr_bits, h]
  refine ⟨hb, ?_, ?_, ?_, ?_, ?_⟩
  · intro j hj
    rw [hb, Nat.testBit_or, Nat.testBit_shiftLeft]
    by_cases hjc : c.toNat ≤ j
    · have : j - c.toNat ≠ 0 := by omega
      simp [Nat.testBit_one_eq_true_iff_self_eq_zero, this]
    · simp [hjc]
  · rw [isr_press_number, h]
    rcases hc with hc | hc | hc <;> rw [hc] <;> decide
  · intro k
    exact presses_counter_range k s (h ▸ hc)
  · rcases hc with hc | hc | hc <;> rw [hc] <;> decide
  · intro hset
    rw [hb]
    exact or_absorb _ _ hset

/-- C3 at concrete states: the first press sets bit 0 and moves the counter
to 1; a press at position 0 with bit 0 already set (after three presses)
leaves `GestureBits` at 7. -/
theorem C3_press_sets_counter_bit_witness :
    (button_isr_handler init).GestureBits = 1 ∧
    (button_isr_handler init).press_number = 1 ∧
    (presses 3 init).press_number = 0 ∧
    (button_isr_handler (presses 3 init)).GestureBits = (presses 3 init).GestureBits :=
  ⟨(C3_press_sets_counter_bit init 0 (Or.inl rfl) rfl).1.trans (by decide),
   (C3_press_sets_counter_bit init 0 (Or.inl rfl) rfl).2.2.1.trans (by decide),
   by decide,
   (C3_press_sets_counter_bit (presses 3 init) 0 (Or.inl rfl) (by decide)).2.2.2.2.2
     (by decide)⟩

/-! ### Frame properties of the tasks -/

theorem wait_then_connect_frame (s : State) :
    (wait_then_connect s).GestureBits = s.GestureBits ∧
    (wait_then_connect s).press_number = s.press_number ∧
    (wait_then_connect s).button_queue = s.button_queue ∧
    (wait_then_connect s).pending = s.pending := by
  unfold wait_then_connect
  split <;> simp

theorem wifi_event_handler_frame (s : State) (b : EventBase) (e : Int) :
    (wifi_event_handler s b e).GestureBits = s.GestureBits ∧
    (wifi_event_handler s b e).press_number = s.press_number ∧
    (wifi_event_handler s b e).button_queue = s.button_queue ∧
    (wifi_event_handler s b e).pending = s.pending := by
  unfold wifi_event_handler
  split_ifs
  · exact wait_then_connect_frame s
  all_goals simp

theorem event_loop_run_frame (s : State) :
    (event_loop_run s).GestureBits = s.GestureBits ∧
    (event_loop_run s).press_number = s.press_number ∧
    (event_loop_run s).button_queue = s.button_queue := by
  unfold event_loop_run
  split
  · obtain ⟨h1, h2, h3, _⟩ := wait_then_connect_frame s
    exact ⟨h1, h2, h3⟩
  · split
    · simp
    · rename_i b e rest _
      obtain ⟨h1, h2, h3, _⟩ := wifi_event_handler_frame { s with pending := rest } b e
      exact ⟨h1, h2, h3⟩

theorem button_task_turn_eq (s : State) :
    button_task_turn s = s ∨
    button_task_turn s =
      { s with
        button_queue := s.button_queue.tail
        led_strip := { pixel := (0, 0, 0), shown := (0, 0, 0) }
        trace := s.trace ++ animationCalls } := by
  unfold button_task_turn
  split
  · exact Or.inl rfl
  · rename_i x rest hq
    right
    rw [button_task_animation_eq, hq]
    rfl

theorem animationCalls_count_connect : animationCalls.count Call.esp_wifi_connect = 0 := by
  decide

theorem animationCalls_count_wait : animationCalls.count Call.xEventGroupWaitBits = 0 := by
  decide

theorem button_task_turn_frame (s : State) :
    (button_task_turn s).GestureBits = s.GestureBits ∧
    (button_task_turn s).press_number = s.press_number ∧
    (button_task_turn s).waiting = s.waiting ∧
    (button_task_turn s).pending = s.pending ∧
    joinCount (button_task_turn s) = joinCount s ∧
    gateJoinCount (button_task_turn s) = gateJoinCount s := by
  rcases button_task_turn_eq s with h | h <;> rw [h]
  · simp
  · simp [joinCount, gateJoinCount, List.count_append, animationCalls_count_connect,
      animationCalls_count_wait]

theorem isr_frame (s : State) :
    (button_isr_handler s).waiting = s.waiting ∧
    (button_isr_handler s).pending = s.pending ∧
    (button_isr_handler s).trace = s.trace ∧
    (button_isr_handler s).led_strip = s.led_strip ∧
    (button_isr_handler s).wifi_connected_semaphore = s.wifi_connected_semaphore :=
  ⟨rfl, rfl, rfl, rfl, rfl⟩

/-- Every transition other than a press leaves the gesture state alone. -/
theorem step_gesture (s : State) (i : Input) :
    (i = Input.press ∧ step s i = button_isr_handler s) ∨
    (i ≠ Input.press ∧ (step s i).GestureBits = s.GestureBits ∧
      (step s i).press_number = s.press_number) := by
  cases i with
  | press => exact Or.inl ⟨rfl, rfl⟩
  | post b e => exact Or.inr ⟨by simp, rfl, rfl⟩
  | loopRun =>
    obtain ⟨h1, h2, _⟩ := event_loop_run_frame s
    exact Or.inr ⟨by simp, h1, h2⟩
  | buttonTask =>
    obtain ⟨h1, h2, _⟩ := button_task_turn_frame s
    exact Or.inr ⟨by simp, h1, h2⟩

theorem step_bits_kept (s : State) (i : Input) :
    (step s i).GestureBits &&& s.GestureBits = s.GestureBits := by
  rcases step_gesture s i with ⟨_, h⟩ | ⟨_, h, _⟩
  · rw [h, isr_bits]
    exact or_and_self _ _
  · rw [h, Nat.and_self]

theorem step_gate (s : State) (i : Input) (h : gateSatisfied s) : gateSatisfied (step s i) := by
  unfold gateSatisfied at h ⊢
  rcases step_gesture s i with ⟨_, hs⟩ | ⟨_, hs, _⟩
  · rw [hs, isr_bits]
    exact or_and_mask _ _ _ h
  · rw [hs]; exact h

theorem run_nil (s : State) : run s [] = s := rfl

theorem run_cons (s : State) (i : Input) (ins : List Input) :
    run s (i :: ins) = run (step s i) ins := rfl

theorem run_append (s : State) (xs ys : List Input) :
    run s (xs ++ ys) = run (run s xs) ys := by
  simp [run, List.foldl_append]

theorem run_gate (s : State) (ins : List Input) (h : gateSatisfied s) :
    gateSatisfied (run s ins) := by
  induction ins generalizing s with
  | nil => exact h
  | cons i ins ih => exact ih _ (step_gate s i h)

theorem run_bits_kept (s : State) (ins : List Input) :
    (run s ins).GestureBits &&& s.GestureBits = s.GestureBits := by
  induction ins generalizing s with
  | nil => exact Nat.and_self _
  | cons i ins ih =>
    rw [run_cons]
    apply Nat.eq_of_testBit_eq
    intro j
    have h1 := congrArg (fun x => x.testBit j) (ih (step s i))
    have h2 := congrArg (fun x => x.testBit j) (step_bits_kept s i)
    simp only [Nat.testBit_and] at h1 h2 ⊢
    cases ha : (run (step s i) ins).GestureBits.testBit j <;>
      cases hb : (step s i).GestureBits.testBit j <;>
      cases hc : s.GestureBits.testBit j <;> simp_all

/-! ### The event-loop task -/

/-- What a slot of the event-loop task can do to the join counters. -/
theorem event_loop_run_cases (s : State) :
    (gateSatisfied s ∧
      gateJoinCount (event_loop_run s) = gateJoinCount s + 1 ∧
      joinCount (event_loop_run s) = joinCount s + 1 ∧
      outstandingStarts (event_loop_run s) + 1 = outstandingStarts s) ∨
    (gateJoinCount (event_loop_run s) = gateJoinCount s ∧
      outstandingStarts (event_loop_run s) = outstandingStarts s ∧
      (joinCount (event_loop_run s) = joinCount s ∨
        (dispatchingDisconnect s ∧ joinCount (event_loop_run s) = joinCount s + 1))) := by
  unfold event_loop_run
  by_cases hw : s.waiting = true
  · rw [if_pos hw]
    unfold wait_then_connect
    by_cases hg : gateSatisfied s
    · left
      rw [if_pos hg]
      refine ⟨hg, ?_, ?_, ?_⟩ <;>
        simp [gateJoinCount, joinCount, outstandingStarts, List.count_append, hw]
      omega
    · right
      rw [if_neg hg]
      simp [gateJoinCount, joinCount, outstandingStarts, hw]
  · rw [if_neg hw]
    have hw' : s.waiting = false := by simpa using hw
    cases hp : s.pending with
    | nil =>
      right
      simp
    | cons ev rest =>
      obtain ⟨b, e⟩ := ev
      simp only
      unfold wifi_event_handler
      by_cases h1 : b = EventBase.WIFI_EVENT ∧ e = WIFI_EVENT_STA_START
      · rw [if_pos h1]
        obtain ⟨hb, he⟩ := h1
        subst hb he
        unfold wait_then_connect
        by_cases hg : gateSatisfied s
        · left
          have hg' : gateSatisfied { s with pending := rest } := hg
          rw [if_pos hg']
          refine ⟨hg, ?_, ?_, ?_⟩ <;>
            simp [gateJoinCount, joinCount, outstandingStarts, List.count_append, hw', hp]
        · right
          have hg' : ¬ gateSatisfied { s with pending := rest } := hg
          rw [if_neg hg']
          simp [gateJoinCount, joinCount, outstandingStarts, hw', hp]
          omega
      · rw [if_neg h1]
        have hne : ((b, e) == (EventBase.WIFI_EVENT, WIFI_EVENT_STA_START)) = false := by
          rw [beq_eq_false_iff_ne]
          intro h
          exact h1 ⟨congrArg Prod.fst h, congrArg Prod.snd h⟩
        by_cases h2 : b = EventBase.WIFI_EVENT ∧ e = WIFI_EVENT_STA_DISCONNECTED
        · rw [if_pos h2]
          obtain ⟨hb, he⟩ := h2
          subst hb he
          right
          refine ⟨?_, ?_, Or.inr ⟨⟨hw', by rw [hp]; rfl⟩, ?_⟩⟩ <;>
            simp [gateJoinCount, joinCount, outstandingStarts, List.count_append, hw', hp,
              List.count_cons, hne]
        · rw [if_neg h2]
          right
          split_ifs <;>
            simp [gateJoinCount, joinCount, outstandingStarts, List.count_append, hw', hp,
              List.count_cons, hne]

/-- Bookkeeping of join requests in a slot of the event-loop task: a join is
issued for a completed gate wait or for a dispatched disconnect. -/
theorem event_loop_run_joins (s : State) :
    joinCount (event_loop_run s) + pendingDisconnects (event_loop_run s) + gateJoinCount s =
      joinCount s + pendingDisconnects s + gateJoinCount (event_loop_run s) := by
  unfold event_loop_run
  by_cases hw : s.waiting = true
  · rw [if_pos hw]
    unfold wait_then_connect
    split <;>
      simp [gateJoinCount, joinCount, pendingDisconnects, List.count_append]
    omega
  · rw [if_neg hw]
    cases hp : s.pending with
    | nil => simp [pendingDisconnects, hp]
    | cons ev rest =>
      obtain ⟨b, e⟩ := ev
      simp only
      unfold wifi_event_handler
      by_cases h1 : b = EventBase.WIFI_EVENT ∧ e = WIFI_EVENT_STA_START
      · rw [if_pos h1]
        obtain ⟨hb, he⟩ := h1
        subst hb he
        have hne : ((EventBase.WIFI_EVENT, WIFI_EVENT_STA_START) ==
            (EventBase.WIFI_EVENT, WIFI_EVENT_STA_DISCONNECTED)) = false := by decide
        unfold wait_then_connect
        split <;>
          simp [gateJoinCount, joinCount, pendingDisconnects, List.count_append, hp,
            List.count_cons, hne]
        omega
      · rw [if_neg h1]
        by_cases h2 : b = EventBase.WIFI_EVENT ∧ e = WIFI_EVENT_STA_DISCONNECTED
        · rw [if_pos h2]
          obtain ⟨hb, he⟩ := h2
          subst hb he
          simp [gateJoinCount, joinCount, pendingDisconnects, List.count_append, hp,
            List.count_cons]
          omega
        · rw [if_neg h2]
          have hne : ((b, e) == (EventBase.WIFI_EVENT, WIFI_EVENT_STA_DISCONNECTED)) = false := by
            rw [beq_eq_false_iff_ne]
            intro h
            exact h2 ⟨congrArg Prod.fst h, congrArg Prod.snd h⟩
          split_ifs <;>
            simp [gateJoinCount, joinCount, pendingDisconnects, List.count_append, hp,
              List.count_cons, hne]

/-- A transition that issues a join request either starts with the gate
condition satisfied or is the dispatch of a disconnect notification. -/
theorem step_join_cases (s : State) (i : Input) (h : joinCount (step s i) ≠ joinCount s) :
    gateSatisfied s ∨ (i = Input.loopRun ∧ dispatchingDisconnect s) := by
  cases i with
  | press => exact absurd rfl h
  | post b e => exact absurd rfl h
  | loopRun =>
    rcases event_loop_run_cases s with ⟨hg, _⟩ | ⟨_, _, hj | ⟨hd, _⟩⟩
    · exact Or.inl hg
    · exact absurd hj h
    · exact Or.inr ⟨rfl, hd⟩
  | buttonTask =>
    exact absurd (button_task_turn_frame s).2.2.2.2.1 h

/-- A gate wait completes only in a state where the gate condition holds. -/
theorem step_gateJoin_gate (s : State) (i : Input)
    (h : gateJoinCount (step s i) ≠ gateJoinCount s) : gateSatisfied s := by
  cases i with
  | press => exact absurd rfl h
  | post b e => exact absurd rfl h
  | loopRun =>
    rcases event_loop_run_cases s with ⟨hg, _⟩ | ⟨hj, _⟩
    · exact hg
    · exact absurd hj h
  | buttonTask =>
    exact absurd (button_task_turn_frame s).2.2.2.2.2 h

theorem run_no_gate_no_gateJoin (s : State) (ins : List Input)
    (h : ¬ gateSatisfied (run s ins)) : gateJoinCount (run s ins) = gateJoinCount s := by
  induction ins generalizing s with
  | nil => rfl
  | cons i ins ih =>
    rw [run_cons] at h ⊢
    rw [ih _ h]
    by_contra hne
    exact h (run_gate _ ins (step_gate s i (step_gateJoin_gate s i hne)))

/-- Bookkeeping of start notifications: each is either answered by a gate
join or still outstanding. -/
theorem step_starts (s : State) (i : Input) :
    gateJoinCount (step s i) + outstandingStarts (step s i) =
      gateJoinCount s + outstandingStarts s + countStart [i] := by
  cases i with
  | press =>
    show gateJoinCount (button_isr_handler s) + outstandingStarts (button_isr_handler s) = _
    simp [gateJoinCount, outstandingStarts, countStart, (isr_frame s).1, (isr_frame s).2.1,
      (isr_frame s).2.2.1]
  | post b e =>
    by_cases h : (b, e) = (EventBase.WIFI_EVENT, WIFI_EVENT_STA_START)
    · obtain ⟨hb, he⟩ := Prod.mk.inj h
      subst hb he
      simp [step, gateJoinCount, outstandingStarts, countStart, List.count_append]
      omega
    · have h1 : ((b, e) == (EventBase.WIFI_EVENT, WIFI_EVENT_STA_START)) = false := by
        rw [beq_eq_false_iff_ne]; exact h
      have h2 : (Input.post b e == Input.post EventBase.WIFI_EVENT WIFI_EVENT_STA_START)
          = false := by
        rw [beq_eq_false_iff_ne]
        intro hh
        injection hh with hb he
        exact h (by rw [hb, he])
      simp [step, gateJoinCount, outstandingStarts, countStart, List.count_append,
        List.count_cons, h1, h2]
  | loopRun =>
    show gateJoinCount (event_loop_run s) + outstandingStarts (event_loop_run s) = _
    have hc : countStart [Input.loopRun] = 0 := by decide
    rcases event_loop_run_cases s with ⟨_, h1, _, h2⟩ | ⟨h1, h2, _⟩ <;> omega
  | buttonTask =>
    show gateJoinCount (button_task_turn s) + outstandingStarts (button_task_turn s) = _
    obtain ⟨_, _, hw, hp, _, hg⟩ := button_task_turn_frame s
    have hc : countStart [Input.buttonTask] = 0 := by decide
    simp [outstandingStarts, hw, hp, hg, hc]

theorem countStart_cons (i : Input) (ins : List Input) :
    countStart (i :: ins) = countStart [i] + countStart ins := by
  simp [countStart, List.count_cons]
  omega

theorem countPress_cons (i : Input) (ins : List Input) :
    countPress (i :: ins) = countPress [i] + countPress ins := by
  simp [countPress, List.count_cons]
  omega

theorem run_starts (s : State) (ins : List Input) :
    gateJoinCount (run s ins) + outstandingStarts (run s ins) =
      gateJoinCount s + outstandingStarts s + countStart ins := by
  induction ins generalizing s with
  | nil => simp [run_nil, countStart]
  | cons i ins ih =>
    rw [run_cons, ih, step_starts, countStart_cons i ins]
    omega

theorem countDisconnect_cons (i : Input) (ins : List Input) :
    countDisconnect (i :: ins) = countDisconnect [i] + countDisconnect ins := by
  simp [countDisconnect, List.count_cons]
  omega

/-- Bookkeeping of join requests: one per completed gate wait and one per
dispatched disconnect notification. -/
theorem step_joins (s : State) (i : Input) :
    joinCount (step s i) + pendingDisconnects (step s i) + gateJoinCount s =
      joinCount s + pendingDisconnects s + gateJoinCount (step s i) + countDisconnect [i] := by
  cases i with
  | press =>
    have hc : countDisconnect [Input.press] = 0 := by decide
    show joinCount (button_isr_handler s) + pendingDisconnects (button_isr_handler s) + _ =
      _ + gateJoinCount (button_isr_handler s) + _
    simp [gateJoinCount, joinCount, pendingDisconnects, hc, (isr_frame s).2.1,
      (isr_frame s).2.2.1]
  | post b e =>
    by_cases h : (b, e) = (EventBase.WIFI_EVENT, WIFI_EVENT_STA_DISCONNECTED)
    · obtain ⟨hb, he⟩ := Prod.mk.inj h
      subst hb he
      simp [step, gateJoinCount, joinCount, pendingDisconnects, countDisconnect,
        List.count_append]
      omega
    · have h1 : ((b, e) == (EventBase.WIFI_EVENT, WIFI_EVENT_STA_DISCONNECTED)) = false := by
        rw [beq_eq_false_iff_ne]; exact h
      have h2 : (Input.post b e ==
          Input.post EventBase.WIFI_EVENT WIFI_EVENT_STA_DISCONNECTED) = false := by
        rw [beq_eq_false_iff_ne]
        intro hh
        injection hh with hb he
        exact h (by rw [hb, he])
      simp [step, gateJoinCount, joinCount, pendingDisconnects, countDisconnect,
        List.count_append, List.count_cons, h1, h2]
  | loopRun =>
    have hc : countDisconnect [Input.loopRun] = 0 := by decide
    have h := event_loop_run_joins s
    show joinCount (event_loop_run s) + pendingDisconnects (event_loop_run s) + _ =
      _ + gateJoinCount (event_loop_run s) + _
    omega
  | buttonTask =>
    have hc : countDisconnect [Input.buttonTask] = 0 := by decide
    obtain ⟨_, _, _, hp, hj, hg⟩ := button_task_turn_frame s
    show joinCount (button_task_turn s) + pendingDisconnects (button_task_turn s) + _ =
      _ + gateJoinCount (button_task_turn s) + _
    simp only [pendingDisconnects, hp, hj, hg, hc]
    omega

theorem run_joins (s : State) (ins : List Input) :
    joinCount (run s ins) + pendingDisconnects (run s ins) + gateJoinCount s =
      joinCount s + pendingDisconnects s + gateJoinCount (run s ins) + countDisconnect ins := by
  induction ins generalizing s with
  | nil => simp [run_nil, countDisconnect]
  | cons i ins ih =>
    rw [run_cons, countDisconnect_cons i ins]
    have h1 := ih (step s i)
    have h2 := step_joins s i
    omega

/-! ### Gesture bits after `k` presses -/

theorem presses_succ (k : Nat) (s : State) :
    presses (k + 1) s = button_isr_handler (presses k s) := by
  induction k generalizing s with
  | zero => rfl
  | succ k ih =>
    show presses (k + 1) (button_isr_handler s) = _
    rw [ih]
    rfl

theorem presses_init (k : Nat) :
    (presses k init).GestureBits = (if k = 0 then 0 else if k = 1 then 1 else if k = 2 then 3 else 7) ∧
    (presses k init).press_number = ((k % 3 : Nat) : Int) := by
  induction k with
  | zero => exact ⟨rfl, rfl⟩
  | succ k ih =>
    obtain ⟨hb, hp⟩ := ih
    rw [presses_succ, isr_bits, isr_press_number, hb, hp]
    have h3 : k % 3 = 0 ∨ k % 3 = 1 ∨ k % 3 = 2 := by omega
    rcases h3 with h | h | h
    · have h' : (k + 1) % 3 = 1 := by omega
      rw [h, h']
      refine ⟨?_, by decide⟩
      by_cases h0 : k = 0
      · subst h0; decide
      · have : 3 ≤ k := by omega
        have e1 : k ≠ 1 := by omega
        have e2 : k ≠ 2 := by omega
        have e3 : k + 1 ≠ 0 := by omega
        have e4 : k + 1 ≠ 1 := by omega
        have e5 : k + 1 ≠ 2 := by omega
        simp only [h0, e1, e2, e3, e4, e5, if_false]
        decide
    · have h' : (k + 1) % 3 = 2 := by omega
      rw [h, h']
      refine ⟨?_, by decide⟩
      by_cases h1 : k = 1
      · subst h1; decide
      · have : 3 ≤ k := by omega
        have e0 : k ≠ 0 := by omega
        have e2 : k ≠ 2 := by omega
        have e3 : k + 1 ≠ 0 := by omega
        have e4 : k + 1 ≠ 1 := by omega
        have e5 : k + 1 ≠ 2 := by omega
        simp only [e0, h1, e2, e3, e4, e5, if_false]
        decide
    · have h' : (k + 1) % 3 = 0 := by omega
      rw [h, h']
      refine ⟨?_, by decide⟩
      by_cases h2 : k = 2
      · subst h2; decide
      · have : 3 ≤ k := by omega
        have e0 : k ≠ 0 := by omega
        have e1 : k ≠ 1 := by omega
        have e3 : k + 1 ≠ 0 := by omega
        have e4 : k + 1 ≠ 1 := by omega
        have e5 : k + 1 ≠ 2 := by omega
        simp only [e0, e1, h2, e3, e4, e5, if_false]
        decide

theorem presses_gate_iff (k : Nat) : gateSatisfied (presses k init) ↔ 3 ≤ k := by
  unfold gateSatisfied
  rw [(presses_init k).1]
  by_cases h0 : k = 0
  · subst h0; decide
  · by_cases h1 : k = 1
    · subst h1; decide
    · by_cases h2 : k = 2
      · subst h2; decide
      · simp only [h0, h1, h2, if_false]
        constructor
        · intro _; omega
        · intro _; decide

/-- The gesture state reached by any run from `init` is the one reached by
its presses alone. -/
theorem run_gesture (s : State) (n : Nat) (ins : List Input)
    (h : s.GestureBits = (presses n init).GestureBits ∧
      s.press_number = (presses n init).press_number) :
    (run s ins).GestureBits = (presses (n + countPress ins) init).GestureBits ∧
    (run s ins).press_number = (presses (n + countPress ins) init).press_number := by
  induction ins generalizing s n with
  | nil => simpa [run_nil, countPress] using h
  | cons i ins ih =>
    rw [run_cons, countPress_cons i ins]
    rcases step_gesture s i with ⟨hi, hs⟩ | ⟨hi, hb, hp⟩
    · subst hi
      have hc : countPress [Input.press] = 1 := by decide
      rw [hc, ← Nat.add_assoc]
      apply ih
      rw [hs, presses_succ, isr_bits, isr_bits, isr_press_number, isr_press_number, h.1, h.2]
      exact ⟨rfl, rfl⟩
    · have hc : countPress [i] = 0 := by
        simp [countPress, List.count_cons]
        intro hh
        exact hi hh
      rw [hc, Nat.zero_add]
      apply ih
      rw [hb, hp]
      exact h

theorem run_init_gate_iff (ins : List Input) :
    gateSatisfied (run init ins) ↔ 3 ≤ countPress ins := by
  have h := run_gesture init 0 ins ⟨rfl, rfl⟩
  rw [Nat.zero_add] at h
  rw [← presses_gate_iff]
  unfold gateSatisfied
  rw [h.1]

/-! ### Letting the event-loop task run out of work -/

theorem event_loop_run_quiescent (s : State) (h : quiescent s) : event_loop_run s = s := by
  unfold event_loop_run
  rcases h with ⟨hw, hg⟩ | ⟨hw, hp⟩
  · rw [if_pos hw]
    unfold wait_then_connect
    rw [if_neg hg]
    cases s
    simp_all
  · simp [hw, hp]

theorem event_loop_run_measure (s : State) (h : ¬ quiescent s) :
    loopMeasure (event_loop_run s) < loopMeasure s := by
  unfold event_loop_run
  by_cases hw : s.waiting = true
  · have hg : gateSatisfied s := by
      by_contra hg
      exact h (Or.inl ⟨hw, hg⟩)
    rw [if_pos hw]
    unfold wait_then_connect
    rw [if_pos hg]
    simp [loopMeasure, hw]
  · rw [if_neg hw]
    have hw' : s.waiting = false := by simpa using hw
    cases hp : s.pending with
    | nil => exact absurd (Or.inr ⟨hw', hp⟩) h
    | cons ev rest =>
      obtain ⟨b, e⟩ := ev
      simp only
      have hlen : (wifi_event_handler { s with pending := rest } b e).pending = rest :=
        (wifi_event_handler_frame { s with pending := rest } b e).2.2.2
      unfold loopMeasure
      rw [hlen]
      simp only [hw', hp, List.length_cons]
      split <;> omega

theorem run_loop_quiescent (n : Nat) (s : State) (h : loopMeasure s ≤ n) :
    quiescent (run s (List.replicate n Input.loopRun)) := by
  induction n generalizing s with
  | zero =>
    have h0 : loopMeasure s = 0 := by omega
    unfold loopMeasure at h0
    right
    by_cases hw : s.waiting = true
    · simp [hw] at h0
    · refine ⟨by simpa using hw, ?_⟩
      have : s.pending.length = 0 := by omega
      exact List.length_eq_zero.mp this
  | succ n ih =>
    rw [List.replicate_succ, run_cons]
    show quiescent (run (event_loop_run s) _)
    by_cases hq : quiescent s
    · rw [event_loop_run_quiescent s hq]
      clear ih h
      induction n with
      | zero => exact hq
      | succ n ih2 =>
        rw [List.replicate_succ, run_cons]
        show quiescent (run (event_loop_run s) _)
        rw [event_loop_run_quiescent s hq]
        exact ih2
    · apply ih
      have := event_loop_run_measure s hq
      omega

theorem settle_quiescent (s : State) : quiescent (settle s) := by
  unfold settle
  apply run_loop_quiescent
  unfold loopMeasure
  split <;> omega

theorem countStart_replicate_loopRun (n : Nat) :
    countStart (List.replicate n Input.loopRun) = 0 := by
  unfold countStart
  rw [List.count_replicate]
  simp

theorem countPress_replicate_loopRun (n : Nat) :
    countPress (List.replicate n Input.loopRun) = 0 := by
  unfold countPress
  rw [List.count_replicate]
  simp

theorem settle_gate (s : State) (h : gateSatisfied s) : gateSatisfied (settle s) :=
  run_gate s _ h

theorem settle_starts (s : State) :
    gateJoinCount (settle s) + outstandingStarts (settle s) =
      gateJoinCount s + outstandingStarts s := by
  unfold settle
  rw [run_starts, countStart_replicate_loopRun]
  rfl

/-- With the gate satisfied, a settled event-loop task has answered every
start notification. -/
theorem settle_gateJoinCount (s : State) (h : gateSatisfied s) :
    gateJoinCount (settle s) = gateJoinCount s + outstandingStarts s := by
  have hq := settle_quiescent s
  have hs := settle_starts s
  rcases hq with ⟨_, hg⟩ | ⟨hw, hp⟩
  · exact absurd (settle_gate s h) hg
  · have h0 : outstandingStarts (settle s) = 0 := by
      simp [outstandingStarts, hw, hp]
    omega

theorem settle_idle (s : State) (h : gateSatisfied s) :
    (settle s).waiting = false ∧ (settle s).pending = [] := by
  rcases settle_quiescent s with ⟨_, hg⟩ | hq
  · exact absurd (settle_gate s h) hg
  · exact hq

theorem countDisconnect_replicate_loopRun (n : Nat) :
    countDisconnect (List.replicate n Input.loopRun) = 0 := by
  unfold countDisconnect
  rw [List.count_replicate]
  simp

/-- With the gate satisfied, a settled event-loop task has issued one join
request per outstanding start and per pending disconnect. -/
theorem settle_joinCount (s : State) (h : gateSatisfied s) :
    joinCount (settle s) = joinCount s + outstandingStarts s + pendingDisconnects s := by
  have h1 := settle_gateJoinCount s h
  have h2 : pendingDisconnects (settle s) = 0 := by
    simp [pendingDisconnects, (settle_idle s h).2]
  have h3 : joinCount (settle s) + pendingDisconnects (settle s) + gateJoinCount s =
      joinCount s + pendingDisconnects s + gateJoinCount (settle s) +
        countDisconnect (List.replicate (2 * s.pending.length + 1) Input.loopRun) :=
    run_joins s _
  rw [countDisconnect_replicate_loopRun] at h3
  omega

/-! ### Join requests and the gate -/

theorem event_loop_run_pending (s : State) :
    (event_loop_run s).pending = s.pending ∨ (event_loop_run s).pending = s.pending.tail := by
  unfold event_loop_run
  split
  · exact Or.inl (wait_then_connect_frame s).2.2.2
  · cases hp : s.pending with
    | nil => exact Or.inl hp
    | cons ev rest =>
      obtain ⟨b, e⟩ := ev
      exact Or.inr (wifi_event_handler_frame { s with pending := rest } b e).2.2.2

/-- While the gate condition is false the event-loop task is held by the
start notification: it is blocked in the gate wait, or the start notification
is the next event it will dispatch.  Such a transition issues no join request. -/
theorem step_gate_holds_loop (s : State) (i : Input)
    (hinv : gateSatisfied s ∨ s.waiting = true ∨
      s.pending.head? = some (EventBase.WIFI_EVENT, WIFI_EVENT_STA_START)) :
    (gateSatisfied (step s i) ∨ (step s i).waiting = true ∨
      (step s i).pending.head? = some (EventBase.WIFI_EVENT, WIFI_EVENT_STA_START)) ∧
    (joinCount (step s i) = joinCount s ∨ gateSatisfied s) := by
  by_cases hg : gateSatisfied s
  · exact ⟨Or.inl (step_gate s i hg), Or.inr hg⟩
  · have hheld : s.waiting = true ∨
        s.pending.head? = some (EventBase.WIFI_EVENT, WIFI_EVENT_STA_START) :=
      hinv.resolve_left hg
    have hsame : joinCount (step s i) = joinCount s := by
      by_contra hne
      rcases step_join_cases s i hne with h | ⟨_, hw, hh⟩
      · exact hg h
      · rcases hheld with h | h
        · rw [hw] at h
          exact Bool.noConfusion h
        · rw [hh] at h
          exact absurd h (by decide)
    refine ⟨Or.inr ?_, Or.inl hsame⟩
    cases i with
    | press =>
      show (button_isr_handler s).waiting = true ∨ (button_isr_handler s).pending.head? = _
      rw [(isr_frame s).1, (isr_frame s).2.1]
      exact hheld
    | post b e =>
      rcases hheld with h | h
      · exact Or.inl h
      · right
        show (s.pending ++ [(b, e)]).head? = _
        cases hp : s.pending with
        | nil => rw [hp] at h; exact absurd h (by simp)
        | cons ev rest => rw [hp] at h; simpa using h
    | loopRun =>
      left
      show (event_loop_run s).waiting = true
      unfold event_loop_run
      by_cases hw : s.waiting = true
      · rw [if_pos hw]
        unfold wait_then_connect
        rw [if_neg hg]
      · rw [if_neg hw]
        have hh := hheld.resolve_left hw
        cases hp : s.pending with
        | nil => rw [hp] at hh; exact absurd hh (by simp)
        | cons ev rest =>
          rw [hp] at hh
          have hev : ev = (EventBase.WIFI_EVENT, WIFI_EVENT_STA_START) := by simpa using hh
          subst hev
          have hg2 : ¬ gateSatisfied { s with pending := rest } := hg
          simp only [wifi_event_handler, and_self, if_true]
          unfold wait_then_connect
          rw [if_neg hg2]
    | buttonTask =>
      show (button_task_turn s).waiting = true ∨ (button_task_turn s).pending.head? = _
      rw [(button_task_turn_frame s).2.2.1, (button_task_turn_frame s).2.2.2.1]
      exact hheld

theorem run_joinsGated (s : State) (ins : List Input)
    (hinv : gateSatisfied s ∨ s.waiting = true ∨
      s.pending.head? = some (EventBase.WIFI_EVENT, WIFI_EVENT_STA_START)) :
    joinsGated s ins = true := by
  induction ins generalizing s with
  | nil => rfl
  | cons i ins ih =>
    obtain ⟨hinv2, hstep⟩ := step_gate_holds_loop s i hinv
    simp only [joinsGated, Bool.and_eq_true, Bool.or_eq_true, decide_eq_true_eq]
    exact ⟨hstep, ih _ hinv2⟩

theorem run_gate_holds_loop (s : State) (ins : List Input)
    (hinv : gateSatisfied s ∨ s.waiting = true ∨
      s.pending.head? = some (EventBase.WIFI_EVENT, WIFI_EVENT_STA_START)) :
    gateSatisfied (run s ins) ∨ (run s ins).waiting = true ∨
      (run s ins).pending.head? = some (EventBase.WIFI_EVENT, WIFI_EVENT_STA_START) := by
  induction ins generalizing s with
  | nil => exact hinv
  | cons i ins ih => exact ih _ (step_gate_holds_loop s i hinv).1

/-- C1: in every sequence of button presses, posted notifications (start,
disconnect, address assignment or any other) and scheduling slots that follows
the start notification posted by `esp_wifi_start`, no transition issues a join
request (`esp_wifi_connect`) from a state in which `GestureBits` lacks a bit
of the mask `0b111`: the start branch waits for the mask, and the reconnect
branch cannot run before that wait has returned. -/
theorem C1_join_requests_gated (ins : List Input) :
    joinsGated booted ins = true ∧
    (∀ i : Input, joinCount (step (run booted ins) i) ≠ joinCount (run booted ins) →
      gateSatisfied (run booted ins)) ∧
    (¬ gateSatisfied (run booted ins) → joinCount (run booted ins) = 0) := by
  have hb : gateSatisfied booted ∨ booted.waiting = true ∨
      booted.pending.head? = some (EventBase.WIFI_EVENT, WIFI_EVENT_STA_START) :=
    Or.inr (Or.inr rfl)
  refine ⟨run_joinsGated booted ins hb, ?_, ?_⟩
  · intro i hne
    rcases (step_gate_holds_loop _ i (run_gate_holds_loop booted ins hb)).2 with h | h
    · exact absurd h hne
    · exact h
  · intro hg
    have key : ∀ (t : State) (l : List Input),
        (gateSatisfied t ∨ t.waiting = true ∨
          t.pending.head? = some (EventBase.WIFI_EVENT, WIFI_EVENT_STA_START)) →
        ¬ gateSatisfied (run t l) → joinCount (run t l) = joinCount t := by
      intro t l
      induction l generalizing t with
      | nil => intro _ _; rfl
      | cons i l ih =>
        intro ht hl
        obtain ⟨ht2, hj⟩ := step_gate_holds_loop t i ht
        rw [run_cons] at hl ⊢
        rw [ih _ ht2 hl]
        rcases hj with h | h
        · exact h
        · exact absurd (run_gate _ l (step_gate t i h)) hl
    exact key booted ins hb hg

/-- C1 at a concrete run: a disconnect posted while the gate is still closed
stays queued behind the blocked start handler and yields no join request. -/
theorem C1_join_requests_gated_witness :
    joinCount (run booted [Input.post EventBase.WIFI_EVENT WIFI_EVENT_STA_DISCONNECTED,
      Input.loopRun, Input.press, Input.loopRun, Input.loopRun, Input.press,
      Input.loopRun]) = 0 :=
  (C1_join_requests_gated _).2.2 (by decide)

/-! ### Three presses open the gate -/

theorem pressPositions_init_iff (k : Nat) :
    ((0 : Int) ∈ pressPositions k init ∧ (1 : Int) ∈ pressPositions k init ∧
      (2 : Int) ∈ pressPositions k init) ↔ 3 ≤ k := by
  by_cases h : 3 ≤ k
  · obtain ⟨m, rfl⟩ : ∃ m, k = m + 3 := ⟨k - 3, by omega⟩
    have hp : pressPositions (m + 3) init =
        0 :: 1 :: 2 :: pressPositions m (presses 3 init) := rfl
    rw [hp]
    simp
  · have hk : k = 0 ∨ k = 1 ∨ k = 2 := by omega
    rcases hk with hk | hk | hk <;> subst hk <;> decide

/-- C2: from the initial state, after `k` presses the gate condition
`GestureBits & 0b111 = 0b111` holds exactly when counter positions 0, 1 and 2
have each been pressed, which is exactly when `k ≥ 3`; with fewer than three
presses the condition is false and no run of the system (whatever
notifications and scheduling it contains) completes the gate wait. -/
theorem C2_gate_iff_three_presses (k : Nat) :
    (gateSatisfied (presses k init) ↔
      ((0 : Int) ∈ pressPositions k init ∧ (1 : Int) ∈ pressPositions k init ∧
        (2 : Int) ∈ pressPositions k init)) ∧
    (gateSatisfied (presses k init) ↔ 3 ≤ k) ∧
    (∀ ins : List Input, countPress ins = k → k < 3 →
      ¬ gateSatisfied (run init ins) ∧ gateJoinCount (run init ins) = 0) := by
  refine ⟨?_, presses_gate_iff k, ?_⟩
  · rw [presses_gate_iff, pressPositions_init_iff]
  · intro ins hk hlt
    have hg : ¬ gateSatisfied (run init ins) := by
      rw [run_init_gate_iff]
      omega
    exact ⟨hg, run_no_gate_no_gateJoin init ins hg⟩

/-- C2 at concrete inputs: two presses around the start notification leave
the gate closed; the third press opens it. -/
theorem C2_gate_iff_three_presses_witness :
    ¬ gateSatisfied (presses 2 init) ∧
    gateJoinCount (run init [Input.press, Input.post EventBase.WIFI_EVENT WIFI_EVENT_STA_START,
      Input.loopRun, Input.press, Input.loopRun]) = 0 ∧
    gateSatisfied (presses 3 init) :=
  ⟨fun h => absurd ((C2_gate_iff_three_presses 2).2.1.mp h) (by decide),
   ((C2_gate_iff_three_presses 2).2.2 _ (by decide) (by decide)).2,
   (C2_gate_iff_three_presses 3).2.1.mpr (by decide)⟩

/-! ### The gate fires once -/

/-- C7: no transition clears a bit of `GestureBits` (the gate wait does not
clear on exit), so a satisfied gate condition stays satisfied along every
run; with a single `WIFI_EVENT_STA_START` among the inputs the gate wait
completes at most once at any time, and once three presses have occurred and
the event-loop task has been given time to run it has completed exactly once,
whatever else (further presses, disconnects, other notifications, in any
order) the inputs contain; the join requests issued are then that one plus
one for each disconnect notification. -/
theorem C7_gate_fires_once :
    (∀ (s : State) (i : Input), (step s i).GestureBits &&& s.GestureBits = s.GestureBits) ∧
    (∀ s : State, (wait_then_connect s).GestureBits = s.GestureBits) ∧
    (∀ (s : State) (ins : List Input), gateSatisfied s → gateSatisfied (run s ins)) ∧
    (∀ ins : List Input, countStart ins = 1 → gateJoinCount (run init ins) ≤ 1) ∧
    (∀ ins : List Input, countStart ins = 1 → 3 ≤ countPress ins →
      gateJoinCount (settle (run init ins)) = 1 ∧
      joinCount (settle (run init ins)) = 1 + countDisconnect ins) := by
  refine ⟨step_bits_kept, fun s => (wait_then_connect_frame s).1, run_gate, ?_, ?_⟩
  · intro ins h1
    have h := run_starts init ins
    have h0 : gateJoinCount init + outstandingStarts init = 0 := by decide
    omega
  · intro ins h1 h3
    have hg : gateSatisfied (run init ins) := (run_init_gate_iff ins).mpr h3
    have h := run_starts init ins
    have h0 : gateJoinCount init + outstandingStarts init = 0 := by decide
    have hj := run_joins init ins
    have h00 : joinCount init + pendingDisconnects init = 0 := by decide
    rw [settle_gateJoinCount _ hg, settle_joinCount _ hg]
    constructor <;> omega

/-- C7 at a concrete run: presses before and after the start notification, a
disconnect and further presses; the gate wait completes once. -/
theorem C7_gate_fires_once_witness :
    gateJoinCount (settle (run init
      [Input.press, Input.post EventBase.WIFI_EVENT WIFI_EVENT_STA_START, Input.loopRun,
        Input.press, Input.press, Input.loopRun,
        Input.post EventBase.WIFI_EVENT WIFI_EVENT_STA_DISCONNECTED, Input.press,
        Input.press, Input.press, Input.loopRun])) = 1 :=
  (C7_gate_fires_once.2.2.2.2 _ (by decide) (by decide)).1

/-! ### Queue saturation -/

theorem step_queue_bound (s : State) (i : Input)
    (h : s.button_queue.length ≤ BUTTON_QUEUE_LENGTH) :
    (step s i).button_queue.length ≤ BUTTON_QUEUE_LENGTH := by
  cases i with
  | press =>
    show (xQueueSendFromISR BUTTON_QUEUE_LENGTH s.button_queue 1).length ≤ _
    unfold xQueueSendFromISR
    split
    · simp; omega
    · exact h
  | post b e => exact h
  | loopRun =>
    show (event_loop_run s).button_queue.length ≤ _
    rw [(event_loop_run_frame s).2.2]
    exact h
  | buttonTask =>
    show (button_task_turn s).button_queue.length ≤ _
    rcases button_task_turn_eq s with h1 | h1 <;> rw [h1]
    · exact h
    · simp only [List.length_tail]
      omega

theorem run_queue_bound (s : State) (ins : List Input)
    (h : s.button_queue.length ≤ BUTTON_QUEUE_LENGTH) :
    (run s ins).button_queue.length ≤ BUTTON_QUEUE_LENGTH := by
  induction ins generalizing s with
  | nil => exact h
  | cons i ins ih => exact ih _ (step_queue_bound s i h)

/-- C6: for a queue within its capacity of 10, one press appends the
notification at the tail when fewer than 10 are stored and leaves the queue
as it is when 10 are stored; in both cases the gesture bit is set and the
counter advanced, the result not depending on the queue; the queue never
holds more than 10 entries, after the press and along every run of the
system. -/
theorem C6_full_queue_drops_notification_only (s : State)
    (h : s.button_queue.length ≤ BUTTON_QUEUE_LENGTH) :
    (button_isr_handler s).GestureBits = s.GestureBits ||| (1 <<< s.press_number.toNat) ∧
    (button_isr_handler s).press_number = (s.press_number + 1).tmod 3 ∧
    (∀ q : List Int,
      (button_isr_handler { s with button_queue := q }).GestureBits =
        (button_isr_handler s).GestureBits ∧
      (button_isr_handler { s with button_queue := q }).press_number =
        (button_isr_handler s).press_number) ∧
    (s.button_queue.length < 10 →
      (button_isr_handler s).button_queue = s.button_queue ++ [1]) ∧
    (s.button_queue.length = 10 → (button_isr_handler s).button_queue = s.button_queue) ∧
    (button_isr_handler s).button_queue.length ≤ 10 ∧
    (∀ ins : List Input, (run s ins).button_queue.length ≤ 10) := by
  refine ⟨rfl, rfl, fun q => ⟨rfl, rfl⟩, ?_, ?_, ?_, ?_⟩
  · intro hlt
    show xQueueSendFromISR BUTTON_QUEUE_LENGTH s.button_queue 1 = _
    unfold xQueueSendFromISR
    exact if_pos hlt
  · intro heq
    show xQueueSendFromISR BUTTON_QUEUE_LENGTH s.button_queue 1 = _
    unfold xQueueSendFromISR
    exact if_neg (by rw [heq]; decide)
  · exact step_queue_bound s Input.press h
  · intro ins
    exact run_queue_bound s ins h

/-- C6 at a full queue: after ten presses the queue is full; the eleventh
press changes bits and counter and leaves the queue as it is. -/
theorem C6_full_queue_drops_notification_only_witness :
    (presses 10 init).button_queue.length = 10 ∧
    (button_isr_handler (presses 10 init)).button_queue = (presses 10 init).button_queue ∧
    (button_isr_handler (presses 10 init)).press_number = 2 ∧
    (button_isr_handler (presses 1 init)).button_queue = [1, 1] :=
  ⟨by decide,
   (C6_full_queue_drops_notification_only (presses 10 init) (by decide)).2.2.2.2.1 (by decide),
   (C6_full_queue_drops_notification_only (presses 10 init) (by decide)).2.1.trans (by decide),
   ((C6_full_queue_drops_notification_only (presses 1 init) (by decide)).2.2.2.1
      (by decide)).trans (by decide)⟩

/-! ### Reconnect -/

theorem disconnect_iterate (k : Nat) (s : State) :
    (fun t => wifi_event_handler t EventBase.WIFI_EVENT WIFI_EVENT_STA_DISCONNECTED)^[k] s =
      { s with trace := s.trace ++ List.replicate k Call.esp_wifi_connect } := by
  induction k generalizing s with
  | zero => simp
  | succ k ih =>
    rw [Function.iterate_succ_apply, ih]
    simp [wifi_event_handler, WIFI_EVENT_STA_DISCONNECTED, WIFI_EVENT_STA_START,
      List.replicate_succ]

/-- C8: in any state, handling one `WIFI_EVENT_STA_DISCONNECTED` adds exactly
the one call `esp_wifi_connect` to the trace and changes nothing else: no
gate wait, no blocking, no semaphore release, `GestureBits` and
`press_number` untouched; handling `k` such notifications adds exactly `k`
join requests. -/
theorem C8_disconnect_issues_one_join (s : State) (k : Nat) :
    wifi_event_handler s EventBase.WIFI_EVENT WIFI_EVENT_STA_DISCONNECTED =
      { s with trace := s.trace ++ [Call.esp_wifi_connect] } ∧
    joinCount (wifi_event_handler s EventBase.WIFI_EVENT WIFI_EVENT_STA_DISCONNECTED) =
      joinCount s + 1 ∧
    gateJoinCount (wifi_event_handler s EventBase.WIFI_EVENT WIFI_EVENT_STA_DISCONNECTED) =
      gateJoinCount s ∧
    (wifi_event_handler s EventBase.WIFI_EVENT WIFI_EVENT_STA_DISCONNECTED).trace.count
      Call.xSemaphoreGive = s.trace.count Call.xSemaphoreGive ∧
    (fun t => wifi_event_handler t EventBase.WIFI_EVENT WIFI_EVENT_STA_DISCONNECTED)^[k] s =
      { s with trace := s.trace ++ List.replicate k Call.esp_wifi_connect } ∧
    joinCount
      ((fun t => wifi_event_handler t EventBase.WIFI_EVENT WIFI_EVENT_STA_DISCONNECTED)^[k] s) =
      joinCount s + k := by
  have h1 : wifi_event_handler s EventBase.WIFI_EVENT WIFI_EVENT_STA_DISCONNECTED =
      { s with trace := s.trace ++ [Call.esp_wifi_connect] } := by
    simp [wifi_event_handler, WIFI_EVENT_STA_DISCONNECTED, WIFI_EVENT_STA_START]
  refine ⟨h1, ?_, ?_, ?_, disconnect_iterate k s, ?_⟩
  · rw [h1]; simp [joinCount, List.count_append]
  · rw [h1]; simp [gateJoinCount, List.count_append]
  · rw [h1]; simp [List.count_append]
  · rw [disconnect_iterate]
    simp [joinCount, List.count_append, List.count_replicate]

/-! ### Remote commands -/

theorem data_of_payload_begins (ev : MqttEvent) (tok : List Nat) (h : tok <+: ev.payload) :
    ∃ rest, ev.data = tok ++ rest := by
  obtain ⟨t, ht⟩ := h
  obtain ⟨u, hu⟩ := List.take_prefix ev.data_len ev.data
  refine ⟨t ++ u, ?_⟩
  rw [← hu, ← List.append_assoc, ht]
  rfl

theorem mqtt_data_ON (s : State) (ev : MqttEvent)
    (hid : ev.event_id = MqttEventId.MQTT_EVENT_DATA) (h : [79, 78] <+: ev.payload) :
    mqtt_event_handler s ev = led_set_state s 1 := by
  obtain ⟨rest, hd⟩ := data_of_payload_begins ev _ h
  unfold mqtt_event_handler
  rw [hid, hd]
  simp [strncmp, str_ON]

theorem mqtt_data_OFF (s : State) (ev : MqttEvent)
    (hid : ev.event_id = MqttEventId.MQTT_EVENT_DATA) (h : [79, 70, 70] <+: ev.payload) :
    mqtt_event_handler s ev = led_set_state s 0 := by
  obtain ⟨rest, hd⟩ := data_of_payload_begins ev _ h
  unfold mqtt_event_handler
  rw [hid, hd]
  simp [strncmp, str_ON, str_OFF]

/-- C4: a data message whose payload begins with the bytes of "ON" makes the
handler call `led_set_state(1)`, one whose payload begins with "OFF" makes it
call `led_set_state(0)`, whatever follows; "ONLINE" has the effect of "ON";
"ON" then "OFF" writes pixel 0 to (16,16,16), refreshes (the LED shows that
colour) and then clears (the LED shows nothing), with no other call in between. -/
theorem C4_mqtt_on_off_commands (s : State) (ev : MqttEvent)
    (hid : ev.event_id = MqttEventId.MQTT_EVENT_DATA) :
    ([79, 78] <+: ev.payload → mqtt_event_handler s ev = led_set_state s 1) ∧
    ([79, 70, 70] <+: ev.payload → mqtt_event_handler s ev = led_set_state s 0) ∧
    (∀ after1 after2 : List Nat,
      mqtt_event_handler s (dataEvent ([79, 78, 76, 73, 78, 69] ++ after1) 6) =
        mqtt_event_handler s (dataEvent ([79, 78] ++ after2) 2)) ∧
    (∀ after1 after2 : List Nat,
      (mqtt_event_handler s (dataEvent ([79, 78] ++ after1) 2)).led_strip.shown =
        (16, 16, 16) ∧
      (mqtt_event_handler (mqtt_event_handler s (dataEvent ([79, 78] ++ after1) 2))
        (dataEvent ([79, 70, 70] ++ after2) 3)).led_strip.shown = (0, 0, 0) ∧
      (mqtt_event_handler (mqtt_event_handler s (dataEvent ([79, 78] ++ after1) 2))
        (dataEvent ([79, 70, 70] ++ after2) 3)).trace =
        s.trace ++ [Call.led_strip_set_pixel 0 16 16 16, Call.led_strip_refresh,
          Call.led_strip_clear]) := by
  have hon : ∀ (t : State) (l : List Nat) (n : Nat),
      mqtt_event_handler t (dataEvent (79 :: 78 :: l) n) = led_set_state t 1 := by
    intro t l n
    simp [mqtt_event_handler, dataEvent, strncmp, str_ON]
  have hoff : ∀ (t : State) (l : List Nat) (n : Nat),
      mqtt_event_handler t (dataEvent (79 :: 70 :: 70 :: l) n) = led_set_state t 0 := by
    intro t l n
    simp [mqtt_event_handler, dataEvent, strncmp, str_ON, str_OFF]
  refine ⟨mqtt_data_ON s ev hid, mqtt_data_OFF s ev hid, ?_, ?_⟩
  · intro after1 after2
    simp only [List.cons_append, List.nil_append]
    rw [hon, hon]
  · intro after1 after2
    simp only [List.cons_append, List.nil_append]
    rw [hoff, hon]
    simp [led_set_state, led_strip_clear, led_strip_refresh, led_strip_set_pixel]

/-- C4 at concrete messages: "ONLINE" switches the LED on, "OFF" followed by
other bytes switches it off. -/
theorem C4_mqtt_on_off_commands_witness :
    (mqtt_event_handler init (dataEvent [79, 78, 76, 73, 78, 69] 6)).led_strip.shown =
      (16, 16, 16) ∧
    (mqtt_event_handler (led_set_state init 1)
      (dataEvent [79, 70, 70, 33] 4)).led_strip.shown = (0, 0, 0) :=
  ⟨((C4_mqtt_on_off_commands init (dataEvent [79, 78, 76, 73, 78, 69] 6) rfl).1
      (by decide)) ▸ (by decide),
   ((C4_mqtt_on_off_commands (led_set_state init 1) (dataEvent [79, 70, 70, 33] 4) rfl).2.1
      (by decide)) ▸ (by decide)⟩

/-- C5 fails on the code: the handler compares the bytes at `event->data`
without looking at `data_len`.  A one-byte payload "O" that is followed in
the receive buffer by the byte 'N' (left there by an earlier "ON" message), and
likewise an empty payload followed by "ON" or a payload "OF" followed by 'F',
does not begin with "ON" or "OFF", yet the handler calls `led_set_state`. -/
theorem C5_short_payload_matched_beyond_its_length :
    ((dataEvent [79, 78] 1).payload = [79] ∧
      mqtt_event_handler init (dataEvent [79, 78] 1) = led_set_state init 1 ∧
      (mqtt_event_handler init (dataEvent [79, 78] 1)).led_strip.shown = (16, 16, 16)) ∧
    ((dataEvent [79, 78] 0).payload = [] ∧
      mqtt_event_handler init (dataEvent [79, 78] 0) = led_set_state init 1) ∧
    ((dataEvent [79, 70, 70] 2).payload = [79, 70] ∧
      mqtt_event_handler (led_set_state init 1) (dataEvent [79, 70, 70] 2) =
        led_set_state (led_set_state init 1) 0 ∧
      (mqtt_event_handler (led_set_state init 1)
        (dataEvent [79, 70, 70] 2)).led_strip.shown = (0, 0, 0)) := by
  decide

/-- Where the code does ignore a message: the payload does not begin with
"ON" or "OFF" and either is at least three bytes long or has nothing stored
after it. -/
theorem mqtt_data_ignored (s : State) (ev : MqttEvent)
    (hid : ev.event_id = MqttEventId.MQTT_EVENT_DATA)
    (hlen : 3 ≤ ev.data_len ∨ ev.data.length ≤ ev.data_len)
    (hon : ¬ [79, 78] <+: ev.payload) (hoff : ¬ [79, 70, 70] <+: ev.payload) :
    mqtt_event_handler s ev = s := by
  obtain ⟨id, data, len⟩ := ev
  simp only at hid hlen
  subst hid
  simp only [MqttEvent.payload] at hon hoff
  unfold mqtt_event_handler
  simp only
  rcases data with _ | ⟨a, _ | ⟨b, _ | ⟨c, tl⟩⟩⟩
  · simp [strncmp, str_ON, str_OFF]
  · by_cases ha : a = 79
    · subst ha; simp [strncmp, str_ON, str_OFF]
    · have ha1 : ¬ (a : Int) = 79 := by omega
      simp [strncmp, str_ON, str_OFF, ha, ha1, sub_eq_zero]
  · have h2 : 2 ≤ len := by
      rcases hlen with h | h
      · omega
      · simpa using h
    obtain ⟨m, rfl⟩ : ∃ m, len = m + 2 := ⟨len - 2, by omega⟩
    simp only [List.take_succ_cons, List.take_nil] at hon hoff
    by_cases ha : a = 79
    · subst ha
      by_cases hb : b = 78
      · subst hb
        exact absurd (List.prefix_refl _) hon
      · by_cases hb2 : b = 70
        · subst hb2; simp [strncmp, str_ON, str_OFF]
        · have hb3 : ¬ (b : Int) = 78 := by omega
          have hb4 : ¬ (b : Int) = 70 := by omega
          simp [strncmp, str_ON, str_OFF, hb, hb2, hb3, hb4, sub_eq_zero]
    · have ha1 : ¬ (a : Int) = 79 := by omega
      simp [strncmp, str_ON, str_OFF, ha, ha1, sub_eq_zero]
  · have h3 : 3 ≤ len := by
      rcases hlen with h | h
      · exact h
      · simp at h; omega
    obtain ⟨m, rfl⟩ : ∃ m, len = m + 3 := ⟨len - 3, by omega⟩
    simp only [List.take_succ_cons] at hon hoff
    by_cases ha : a = 79
    · subst ha
      by_cases hb : b = 78
      · subst hb
        exact absurd ⟨c :: tl.take m, rfl⟩ hon
      · by_cases hb2 : b = 70
        · subst hb2
          by_cases hc : c = 70
          · subst hc
            exact absurd ⟨tl.take m, rfl⟩ hoff
          · have hc1 : ¬ (c : Int) = 70 := by omega
            simp [strncmp, str_ON, str_OFF, hc, hc1, sub_eq_zero]
        · have hb3 : ¬ (b : Int) = 78 := by omega
          have hb4 : ¬ (b : Int) = 70 := by omega
          simp [strncmp, str_ON, str_OFF, hb, hb2, hb3, hb4, sub_eq_zero]
    · have ha1 : ¬ (a : Int) = 79 := by omega
      simp [strncmp, str_ON, str_OFF, ha, ha1, sub_eq_zero]

/-! ### Animation -/

/-- C9: consuming one press notification runs ten steps, step `i` writing
pixel 0 with `(16*(i mod 1), 16*(i mod 2), 16*(i mod 3))`, refreshing (the LED
then shows that colour), calling the 100 ms delay and clearing; the LED ends
cleared whatever it showed before, and nothing else changes but the queue
losing its head. -/
theorem C9_animation_sequence (s : State) (x : Int) (q : List Int)
    (h : s.button_queue = x :: q) :
    button_task_turn s =
      { s with
        button_queue := q
        led_strip := { pixel := (0, 0, 0), shown := (0, 0, 0) }
        trace := s.trace ++ (List.range 10).flatMap (fun i =>
          [Call.led_strip_set_pixel 0 (16 * (i % 1)) (16 * (i % 2)) (16 * (i % 3)),
           Call.led_strip_refresh, Call.vTaskDelay_ms 100, Call.led_strip_clear]) } ∧
    ((button_task_turn s).trace.length = s.trace.length + 4 * 10) ∧
    (button_task_turn s).led_strip.shown = (0, 0, 0) ∧
    (∀ (t : State) (i : Nat),
      (led_strip_refresh (led_strip_set_pixel t 0 (16 * (i % 1)) (16 * (i % 2))
        (16 * (i % 3)))).led_strip.shown = (16 * (i % 1), 16 * (i % 2), 16 * (i % 3)) ∧
      (button_task_step t i).led_strip.shown = (0, 0, 0)) := by
  have hturn : button_task_turn s =
      { s with
        button_queue := q
        led_strip := { pixel := (0, 0, 0), shown := (0, 0, 0) }
        trace := s.trace ++ animationCalls } := by
    unfold button_task_turn
    rw [h]
    simp only
    rw [button_task_animation_eq]
  refine ⟨hturn, ?_, ?_, ?_⟩
  · rw [hturn]
    simp [animationCalls, animationStepCalls, List.range_succ]
  · rw [hturn]
  · intro t i
    constructor
    · simp [led_strip_refresh, led_strip_set_pixel]
    · rw [button_task_step_eq]

/-- C9 with the LED switched on before the press: after the animation the LED
is cleared. -/
theorem C9_animation_sequence_witness :
    (button_isr_handler (led_set_state init 1)).led_strip.shown = (16, 16, 16) ∧
    (button_task_turn (button_isr_handler (led_set_state init 1))).led_strip.shown =
      (0, 0, 0) ∧
    (button_task_turn (button_isr_handler (led_set_state init 1))).button_queue = [] :=
  ⟨by decide,
   (C9_animation_sequence (button_isr_handler (led_set_state init 1)) 1 [] (by decide)).2.2.1,
   by rw [(C9_animation_sequence (button_isr_handler (led_set_state init 1)) 1 []
      (by decide)).1]⟩

/-! ### Interleaved actuator writes -/

end BlinkExample
